import Mathlib

/-
Verification of the XML-to-model binding layer of the boardgamegeek SDK
(module bgg.models.bgg). The development shallowly embeds the binding
code: XML element trees as exposed by xml.etree.ElementTree, the five
lookup strategies of BGGBaseModel get_xml_value, the per-field binding
loop of BGGBaseModel.from_xml, the construction and validation step
(defaults, required fields, type coercion, as the pydantic
model_validate call applies them), and the list binding of
BGGBaseList.validate_xml. Concrete schemas (BGGName, BGGLink, BGGPoll,
BGGGame) are transcribed field by field from the source declarations;
pydantic type coercions are modelled as explicit functions from an
extracted raw value and the current clock reading to an optional
validated value.
-/

set_option maxRecDepth 10000

namespace BGG

/-- XML element as exposed by xml.etree.ElementTree: a tag, an attribute
map, optional text content and a list of direct children in document
order. -/
structure XMLElem where
  tag : String
  attrib : List (String × String)
  text : Option String
  children : List XMLElem

/-- Element.get: look up an attribute of the element itself. -/
def XMLElem.get (e : XMLElem) (key : String) : Option String :=
  (e.attrib.find? (fun p => p.1 == key)).map (fun p => p.2)

/-- Element.find with a plain tag: the first direct child whose tag
matches. -/
def XMLElem.find (e : XMLElem) (tag : String) : Option XMLElem :=
  e.children.find? (fun c => c.tag == tag)

/-- Element.findall with a plain tag: all direct children whose tag
matches, in document order. -/
def XMLElem.findall (e : XMLElem) (tag : String) : List XMLElem :=
  e.children.filter (fun c => c.tag == tag)

/-- Element.findtext with a plain tag: the text of the first matching
direct child, with the empty string substituted when that child has no
text, and none when there is no matching child. -/
def XMLElem.findtext (e : XMLElem) (tag : String) : Option String :=
  (e.find tag).map (fun c => c.text.getD "")

/-- The XMLLookupStrategy enum of the source. -/
inductive XMLLookupStrategy where
  | attribute
  | text
  | find
  | findall
  | auto
deriving DecidableEq

/-- The possible results of get_xml_value: a string, a raw element
handle, or a list of element handles. -/
inductive XMLValue where
  | str (s : String)
  | elem (e : XMLElem)
  | elems (es : List XMLElem)

/-- Embedding of BGGBaseModel get_xml_value, the per-strategy extraction
routine. Mirrors the match statement of the source case by case,
including the early return of None inside the auto findtext step when
the stripped text is empty. -/
def get_xml_value (xml_elem : XMLElem) (tag : String)
    (strategy : XMLLookupStrategy) : Option XMLValue :=
  match strategy with
  | .attribute => (xml_elem.get tag).map XMLValue.str
  | .text => (xml_elem.findtext tag).map XMLValue.str
  | .find =>
    match xml_elem.find tag with
    | none => none
    | some elem =>
      match elem.get "value" with
      | some v => some (XMLValue.str v)
      | none => elem.text.map XMLValue.str
  | .findall =>
    let elements := xml_elem.findall tag
    if elements.isEmpty then none else some (XMLValue.elems elements)
  | .auto =>
    match xml_elem.get tag with
    | some v => some (XMLValue.str v)
    | none =>
      match xml_elem.find tag with
      | some elem =>
        match elem.get "value" with
        | some v => some (XMLValue.str v)
        | none =>
          match elem.text with
          | some s =>
            if s.trim == "" then some (XMLValue.elem elem)
            else some (XMLValue.str s.trim)
          | none => some (XMLValue.elem elem)
      | none =>
        match xml_elem.findtext tag with
        | some s =>
          if s.trim == "" then none else some (XMLValue.str s.trim)
        | none =>
          let elements := xml_elem.findall tag
          if elements.isEmpty then none
          else some (XMLValue.elems elements)

/-- Step one of the auto chain as the spec describes it: the attribute
lookup. -/
def attrLookup (e : XMLElem) (tag : String) : Option XMLValue :=
  (e.get tag).map XMLValue.str

/-- Step two of the auto chain as the spec describes it: the Find style
single child lookup, preferring the value attribute, else trimmed
non-empty text, else the raw child element. -/
def findLookup (e : XMLElem) (tag : String) : Option XMLValue :=
  match e.find tag with
  | none => none
  | some c =>
    match c.get "value" with
    | some v => some (XMLValue.str v)
    | none =>
      match c.text with
      | some s =>
        if s.trim == "" then some (XMLValue.elem c)
        else some (XMLValue.str s.trim)
      | none => some (XMLValue.elem c)

/-- Step three of the auto chain as the spec describes it: the Text
style lookup, trimmed, with the empty string treated as absent. -/
def textLookup (e : XMLElem) (tag : String) : Option XMLValue :=
  match e.findtext tag with
  | some s => if s.trim == "" then none else some (XMLValue.str s.trim)
  | none => none

/-- Step four of the auto chain as the spec describes it: the FindAll
lookup returning the matching children when there are any. -/
def findAllLookup (e : XMLElem) (tag : String) : Option XMLValue :=
  let elements := e.findall tag
  if elements.isEmpty then none else some (XMLValue.elems elements)

/-- The auto chain with the findtext step removed, used by the dead-step
equivalence claim. -/
def autoWithoutFindtext (e : XMLElem) (tag : String) : Option XMLValue :=
  match e.get tag with
  | some v => some (XMLValue.str v)
  | none =>
    match e.find tag with
    | some elem =>
      match elem.get "value" with
      | some v => some (XMLValue.str v)
      | none =>
        match elem.text with
        | some s =>
          if s.trim == "" then some (XMLValue.elem elem)
          else some (XMLValue.str s.trim)
        | none => some (XMLValue.elem elem)
    | none =>
      let elements := e.findall tag
      if elements.isEmpty then none else some (XMLValue.elems elements)

/-- Values a validated record field can hold: none, strings, integers,
a timestamp (datetime modelled as a natural clock reading), lists and
nested records. -/
inductive PyValue where
  | vNone
  | vStr (s : String)
  | vInt (n : Int)
  | vTime (t : Nat)
  | vList (vs : List PyValue)
  | vRec (fields : List (String × PyValue))

/-- Default of a schema field: absent (the field is required), a plain
default value, or the default factory of the source fetched_at fields,
which reads the current clock. -/
inductive FieldDefault where
  | required
  | value (v : PyValue)
  | factoryNow

/-- Per-field schema metadata, as from_xml reads it off model_fields:
the declared field name, the validation alias (explicit, or produced by
the flatcase alias generator), the optional xml_tag from XMLField, the
stored lookup strategy token, the default, and the coercion the
validation step applies to an extracted raw value. Pydantic coercions
are modelled as explicit functions taking the extracted value and the
current clock. -/
structure FieldSpec where
  name : String
  aliasName : Option String
  xmlTag : Option String
  strategyTok : Option String
  dflt : FieldDefault
  coe : XMLValue → Nat → Option PyValue

/-- A record schema is the ordered sequence of its field specs. -/
abbrev RecordSchema := List FieldSpec

/-- A validated record: field name to value, in declaration order. -/
abbrev Record := List (String × PyValue)

/-- Python or on strings: the second operand when the first is missing
or empty. -/
def orStr (a : Option String) (b : String) : String :=
  match a with
  | some s => if s == "" then b else s
  | none => b

/-- Tag resolution of from_xml: xml_tag, else the alias, else the field
name, each skipped when falsy. -/
def FieldSpec.resolvedTag (f : FieldSpec) : String :=
  orStr f.xmlTag (orStr f.aliasName f.name)

/-- The StrEnum constructor: a recognized token yields its strategy,
anything else raises ValueError in the source. -/
def strategyFromToken : String → Option XMLLookupStrategy
  | "attribute" => some XMLLookupStrategy.attribute
  | "text" => some XMLLookupStrategy.text
  | "find" => some XMLLookupStrategy.find
  | "findall" => some XMLLookupStrategy.findall
  | "auto" => some XMLLookupStrategy.auto
  | _ => none

/-- Strategy resolution of from_xml: default auto when the token is
unset, and the try/except around the StrEnum constructor downgrades an
unrecognized token to auto. -/
def resolveStrategy (tok : Option String) : XMLLookupStrategy :=
  match tok with
  | none => XMLLookupStrategy.auto
  | some s => (strategyFromToken s).getD XMLLookupStrategy.auto

/-- Extraction for one field: get_xml_value at the resolved tag under
the resolved strategy. -/
def extractField (e : XMLElem) (f : FieldSpec) : Option XMLValue :=
  get_xml_value e f.resolvedTag (resolveStrategy f.strategyTok)

/-- Replace the strategy token of a field, leaving all else unchanged. -/
def FieldSpec.withTok (f : FieldSpec) (tok : Option String) : FieldSpec :=
  { f with strategyTok := tok }

/-- Two schemas are binding-equivalent when they pair up fields agreeing
on name, resolved tag, resolved strategy, default and coercion; the
binder cannot distinguish such schemas. -/
inductive SchemaEquiv : RecordSchema → RecordSchema → Prop
  | nil : SchemaEquiv [] []
  | cons (f₁ f₂ : FieldSpec) (s₁ s₂ : RecordSchema) :
      f₁.name = f₂.name →
      f₁.resolvedTag = f₂.resolvedTag →
      resolveStrategy f₁.strategyTok = resolveStrategy f₂.strategyTok →
      f₁.dflt = f₂.dflt →
      f₁.coe = f₂.coe →
      SchemaEquiv s₁ s₂ →
      SchemaEquiv (f₁ :: s₁) (f₂ :: s₂)

/-- Insertion into the value dict: overwrite an existing binding of the
key, append otherwise, as a Python dict assignment does. -/
def insertTag (m : List (String × XMLValue)) (k : String) (v : XMLValue) :
    List (String × XMLValue) :=
  if m.any (fun p => p.1 == k) then
    m.map (fun p => if p.1 == k then (k, v) else p)
  else m ++ [(k, v)]

/-- Dict lookup on the value map. -/
def lookupTag (m : List (String × XMLValue)) (k : String) : Option XMLValue :=
  (m.find? (fun p => p.1 == k)).map (fun p => p.2)

/-- The field loop of from_xml: for each field in schema order, extract
a value and, when one is produced, store it in full_dict under the
resolved tag. A missing value only logs a warning and moves on. -/
def buildValueMapGo (e : XMLElem) :
    RecordSchema → List (String × XMLValue) → List (String × XMLValue)
  | [], m => m
  | f :: rest, m =>
    buildValueMapGo e rest
      (match extractField e f with
        | some v => insertTag m f.resolvedTag v
        | none => m)

/-- The completed value map handed to model_validate. -/
def buildValueMap (s : RecordSchema) (e : XMLElem) : List (String × XMLValue) :=
  buildValueMapGo e s []

/-- Bind errors the construction step can raise: a required field with
no extracted value, or an extracted value the field type cannot
coerce. -/
inductive BindError where
  | missingRequired (field : String)
  | coercionFailed (field : String)

/-- Validation of one field during construction: an extracted value is
coerced to the field type; otherwise the default applies, a default
factory reads the clock, and a required field with no value is a
validation error. Defaults are not themselves validated, matching
pydantic. -/
def bindField (f : FieldSpec) (m : List (String × XMLValue)) (t : Nat) :
    Except BindError PyValue :=
  match lookupTag m f.resolvedTag with
  | some xv =>
    match f.coe xv t with
    | some v => Except.ok v
    | none => Except.error (BindError.coercionFailed f.name)
  | none =>
    match f.dflt with
    | FieldDefault.value v => Except.ok v
    | FieldDefault.factoryNow => Except.ok (PyValue.vTime t)
    | FieldDefault.required => Except.error (BindError.missingRequired f.name)

/-- The model_validate step: construct the record field by field from
the completed value map, failing on the first schema violation. -/
def constructRecord (m : List (String × XMLValue)) (t : Nat) :
    RecordSchema → Except BindError Record
  | [] => Except.ok []
  | f :: rest =>
    match bindField f m t with
    | Except.error err => Except.error err
    | Except.ok v =>
      match constructRecord m t rest with
      | Except.error err => Except.error err
      | Except.ok vs => Except.ok ((f.name, v) :: vs)

/-- Embedding of BGGBaseModel.from_xml: build the value map over all
fields, then hand it to the construction and validation step. The clock
t is the external state a default factory may read. -/
def from_xml (s : RecordSchema) (e : XMLElem) (t : Nat) :
    Except BindError Record :=
  constructRecord (buildValueMap s e) t s

/-- Embedding of BGGBaseList.validate_xml on a list of elements: bind
each element in input order, aborting on the first failure, as the list
comprehension of the source does. -/
def validate_xml (s : RecordSchema) :
    List XMLElem → Nat → Except BindError (List Record)
  | [], _ => Except.ok []
  | e :: es, t =>
    match from_xml s e t with
    | Except.error err => Except.error err
    | Except.ok r =>
      match validate_xml s es t with
      | Except.error err => Except.error err
      | Except.ok rs => Except.ok (r :: rs)

/-- Numeric value of a decimal digit character. -/
def charDigit (c : Char) : Option Nat :=
  if c.isDigit then some (c.toNat - 48) else none

/-- Decimal value of a non-empty digit string. -/
def parseNatChars (cs : List Char) : Option Nat :=
  match cs with
  | [] => none
  | _ =>
    cs.foldl
      (fun acc c =>
        match acc, charDigit c with
        | some n, some d => some (10 * n + d)
        | _, _ => none)
      (some 0)

/-- Integer parsing of a decimal string with optional leading minus,
modelling the pydantic int-from-string coercion. -/
def parseInt (s : String) : Option Int :=
  match s.data with
  | '-' :: rest => (parseNatChars rest).map (fun n => -(n : Int))
  | cs => (parseNatChars cs).map (fun n => (n : Int))

/-- Coercion of an int typed field: a numeric string parses, any other
extracted value is rejected. -/
def coeInt : XMLValue → Nat → Option PyValue := fun xv _ =>
  match xv with
  | XMLValue.str s => (parseInt s).map PyValue.vInt
  | _ => none

/-- Coercion of a str typed field: a string passes through unchanged. -/
def coeStr : XMLValue → Nat → Option PyValue := fun xv _ =>
  match xv with
  | XMLValue.str s => some (PyValue.vStr s)
  | _ => none

/-- Coercion of a StrEnum typed field: the string must be one of the
member values. -/
def coeEnum (vals : List String) : XMLValue → Nat → Option PyValue :=
  fun xv _ =>
    match xv with
    | XMLValue.str s =>
      if vals.contains s then some (PyValue.vStr s) else none
    | _ => none

/-- Coercion of an HttpUrl field; URL syntax checking is abstracted and
the string is kept verbatim, no claim exercises URL validation. -/
def coeUrl : XMLValue → Nat → Option PyValue := fun xv _ =>
  match xv with
  | XMLValue.str s => some (PyValue.vStr s)
  | _ => none

/-- Coercion of a nested model or dict typed field from an extracted XML
value: pydantic cannot validate such a field from a string or a raw
element handle, so every extracted value is rejected. -/
def coeModel : XMLValue → Nat → Option PyValue := fun _ _ => none

/-- Coercion of a datetime field from an extracted value; string to
datetime parsing is not modelled, no claim exercises it. -/
def coeDatetime : XMLValue → Nat → Option PyValue := fun _ _ => none

/-- Coercion of a BGGBaseList subclass field: the validate_xml model
validator binds each element of a list of element handles; any other
shape of data falls through to the list root validation and fails. -/
def coeModelList (sub : RecordSchema) : XMLValue → Nat → Option PyValue :=
  fun xv t =>
    match xv with
    | XMLValue.elems es =>
      match validate_xml sub es t with
      | Except.ok rs => some (PyValue.vList (rs.map PyValue.vRec))
      | Except.error _ => none
    | _ => none

/-- Member values of the BGGGameType enum. -/
def bggGameTypeVals : List String :=
  ["boardgame", "boardgameexpansion", "boardgameaccessory"]

/-- Member values of the BGGLinkType enum. -/
def bggLinkTypeVals : List String :=
  ["boardgamecategory", "boardgamemechanic", "boardgamedesigner",
   "boardgamepublisher", "boardgameartist", "boardgamefamily",
   "boardgameexpansion", "boardgameaccessory", "boardgameintegration",
   "boardgameimplementation"]

/-- Schema of BGGName: three required attribute fields, with the alias
of name_type explicitly set to type and the other aliases produced by
the flatcase generator. -/
def nameSchema : RecordSchema :=
  [⟨"name_type", some "type", none, some "attribute",
      FieldDefault.required, coeStr⟩,
   ⟨"value", some "value", none, some "attribute",
      FieldDefault.required, coeStr⟩,
   ⟨"sort_index", some "sortindex", none, some "attribute",
      FieldDefault.required, coeInt⟩]

/-- Schema of BGGLink: a required link type enum, id and value, all
attribute lookups. -/
def linkSchema : RecordSchema :=
  [⟨"link_type", some "type", none, some "attribute",
      FieldDefault.required, coeEnum bggLinkTypeVals⟩,
   ⟨"id", some "id", none, some "attribute",
      FieldDefault.required, coeInt⟩,
   ⟨"value", some "value", none, some "attribute",
      FieldDefault.required, coeStr⟩]

/-- Schema of BGGPoll: plain fields with no XMLField metadata, so no
strategy token, plus a defaulted results dict. -/
def pollSchema : RecordSchema :=
  [⟨"name", some "name", none, none, FieldDefault.required, coeStr⟩,
   ⟨"title", some "title", none, none, FieldDefault.required, coeStr⟩,
   ⟨"total_votes", some "totalvotes", none, none,
      FieldDefault.required, coeInt⟩,
   ⟨"results", some "results", none, none,
      FieldDefault.value (PyValue.vRec []), coeModel⟩]

/-- Schema of BGGGame, transcribed field by field from the source: the
declared strategy tokens and explicit aliases of each XMLField call,
the flatcase generated aliases elsewhere, the empty list and None
defaults, and the fetched_at field whose default factory reads the
current clock. -/
def bggGameSchema : RecordSchema :=
  [⟨"id", some "id", none, some "attribute", FieldDefault.required, coeInt⟩,
   ⟨"game_type", some "type", none, some "attribute",
      FieldDefault.required, coeEnum bggGameTypeVals⟩,
   ⟨"names", some "name", some "name", some "findall",
      FieldDefault.value (PyValue.vList []), coeModelList nameSchema⟩,
   ⟨"thumbnail", some "thumbnail", none, some "text",
      FieldDefault.value PyValue.vNone, coeUrl⟩,
   ⟨"image", some "image", none, some "text",
      FieldDefault.value PyValue.vNone, coeUrl⟩,
   ⟨"description", some "description", none, some "text",
      FieldDefault.value PyValue.vNone, coeStr⟩,
   ⟨"year_published", some "yearpublished", none, some "attribute",
      FieldDefault.value PyValue.vNone, coeInt⟩,
   ⟨"min_players", some "minplayers", none, some "attribute",
      FieldDefault.value PyValue.vNone, coeInt⟩,
   ⟨"max_players", some "maxplayers", none, some "attribute",
      FieldDefault.value PyValue.vNone, coeInt⟩,
   ⟨"playing_time", some "playingtime", none, some "attribute",
      FieldDefault.value PyValue.vNone, coeInt⟩,
   ⟨"min_playtime", some "minplaytime", none, some "attribute",
      FieldDefault.value PyValue.vNone, coeInt⟩,
   ⟨"max_playtime", some "maxplaytime", none, some "attribute",
      FieldDefault.value PyValue.vNone, coeInt⟩,
   ⟨"min_age", some "minage", none, some "attribute",
      FieldDefault.value PyValue.vNone, coeInt⟩,
   ⟨"links", some "links", some "link", some "findall",
      FieldDefault.value (PyValue.vList []), coeModelList linkSchema⟩,
   ⟨"polls", some "polls", none, none,
      FieldDefault.value (PyValue.vList []), coeModelList pollSchema⟩,
   ⟨"statistics", some "statistics", none, none,
      FieldDefault.value PyValue.vNone, coeModel⟩,
   ⟨"fetched_at", some "fetchedat", none, none,
      FieldDefault.factoryNow, coeDatetime⟩]

/-- Parent element of the spec precedence example: an attribute type
with value boardgame and a child element named type with text other. -/
def precElem : XMLElem :=
  ⟨"item", [("type", "boardgame")], none,
    [⟨"type", [], some "other", []⟩]⟩

/-- Element with one child carrying text, used to instantiate the dead
step claim. -/
def deadStepElem : XMLElem :=
  ⟨"item", [], none, [⟨"v", [], some "x", []⟩]⟩

/-- Element holding a child named d whose text is whitespace only. -/
def wsElem : XMLElem :=
  ⟨"item", [], none, [⟨"d", [], some "  ", []⟩]⟩

/-- Child element of the spec Find example. -/
def yearElem : XMLElem := ⟨"yearpublished", [("value", "2017")], none, []⟩

/-- Parent element of the spec Find example. -/
def yearParent : XMLElem := ⟨"item", [], none, [yearElem]⟩

/-- Three link children of the spec FindAll example. -/
def linkA : XMLElem := ⟨"link", [("id", "1")], none, []⟩

def linkB : XMLElem := ⟨"link", [("id", "2")], none, []⟩

def linkC : XMLElem := ⟨"link", [("id", "3")], none, []⟩

/-- Parent with three link children and one other child. -/
def linkParent : XMLElem :=
  ⟨"item", [], none, [linkA, ⟨"name", [], none, []⟩, linkB, linkC]⟩

/-- A minimal game item element carrying only the two required
attributes. -/
def gameElem : XMLElem :=
  ⟨"item", [("id", "1"), ("type", "boardgame")], none, []⟩

/-- A primary name element as in the Wingspan example of the spec. -/
def wingspanName : XMLElem :=
  ⟨"name", [("type", "primary"), ("sortindex", "1"), ("value", "Wingspan")],
    none, []⟩

/-- An element with no attributes, text or children. -/
def bareElem : XMLElem := ⟨"item", [], none, []⟩

/-- A required int attribute field named rank. -/
def reqRank : FieldSpec :=
  ⟨"rank", some "rank", none, some "attribute", FieldDefault.required, coeInt⟩

/-- The identical field with a default value of five. -/
def dfltRank : FieldSpec :=
  ⟨"rank", some "rank", none, some "attribute",
    FieldDefault.value (PyValue.vInt 5), coeInt⟩

/-- A required int attribute field named id. -/
def idField : FieldSpec :=
  ⟨"id", some "id", none, some "attribute", FieldDefault.required, coeInt⟩

/-- Two elements carrying an id attribute, for the list binding
witnesses. -/
def elemA : XMLElem := ⟨"a", [("id", "3")], none, []⟩

def elemB : XMLElem := ⟨"b", [("id", "4")], none, []⟩

/-- Projection reading the clock value stored in the fetched_at field
of a bound record. -/
def fetchedTime : Except BindError Record → Option Nat
  | Except.ok r =>
    match (r.find? (fun p => p.1 == "fetched_at")).map (fun p => p.2) with
    | some (PyValue.vTime t) => some t
    | _ => none
  | Except.error _ => none

/-- Findtext yields a value exactly when find yields a child. -/
theorem findtext_isSome_iff_find_isSome (e : XMLElem) (tag : String) :
    (e.findtext tag).isSome = (e.find tag).isSome := by
  unfold XMLElem.findtext
  cases e.find tag <;> rfl

theorem findtext_eq_none_of_find_eq_none (e : XMLElem) (tag : String)
    (h : e.find tag = none) : e.findtext tag = none := by
  unfold XMLElem.findtext
  rw [h]
  rfl

/-- C1: under the Auto strategy, extraction tries attribute, Find style
lookup, Text style lookup and FindAll in this fixed order and returns
the first non-absent result; in particular an attribute beats a
same-named child element. -/
theorem c1_auto_precedence (e : XMLElem) (tag : String) :
    get_xml_value e tag XMLLookupStrategy.auto =
      (attrLookup e tag <|> findLookup e tag <|> textLookup e tag
        <|> findAllLookup e tag)
    ∧ (∀ v, e.get tag = some v →
        get_xml_value e tag XMLLookupStrategy.auto = some (XMLValue.str v)) := by
  constructor
  · cases hg : e.get tag with
    | some v => simp [get_xml_value, attrLookup, hg]
    | none =>
      cases hf : e.find tag with
      | some c =>
        simp only [get_xml_value, attrLookup, findLookup, textLookup,
          findAllLookup, hg, hf, Option.map_none, Option.none_orElse]
        cases hv : c.get "value" with
        | some v => simp [hv]
        | none =>
          cases ht : c.text with
          | some s =>
            simp only [hv, ht]
            split <;> simp
          | none => simp [hv, ht]
      | none =>
        have hft := findtext_eq_none_of_find_eq_none e tag hf
        simp [get_xml_value, attrLookup, findLookup, textLookup,
          findAllLookup, hg, hf, hft]
  · intro v hv
    simp [get_xml_value, hv]

/-- Witness for C1: on the spec example the attribute value wins over
the same-named child element. -/
theorem c1_auto_precedence_witness :
    precElem.get "type" = some "boardgame"
    ∧ get_xml_value precElem "type" XMLLookupStrategy.auto
        = some (XMLValue.str "boardgame") :=
  ⟨rfl, (c1_auto_precedence precElem "type").2 "boardgame" rfl⟩

/-- C10: the Text style findtext step of the Auto chain never determines
the result, because findtext yields a value only when find already
yielded a child; hence the Auto chain equals the same chain with the
findtext step removed. -/
theorem c10_auto_findtext_step_dead (e : XMLElem) (tag : String) :
    (∀ s, e.findtext tag = some s → (e.find tag).isSome)
    ∧ get_xml_value e tag XMLLookupStrategy.auto = autoWithoutFindtext e tag := by
  constructor
  · intro s hs
    rw [← findtext_isSome_iff_find_isSome, hs]
    rfl
  · cases hg : e.get tag with
    | some v => simp [get_xml_value, autoWithoutFindtext, hg]
    | none =>
      cases hf : e.find tag with
      | some c => simp [get_xml_value, autoWithoutFindtext, hg, hf]
      | none =>
        have hft := findtext_eq_none_of_find_eq_none e tag hf
        simp [get_xml_value, autoWithoutFindtext, hg, hf, hft]

/-- Witness for C10: a concrete element where findtext yields a value
and find indeed already matched, and the two chains agree. -/
theorem c10_auto_findtext_step_dead_witness :
    deadStepElem.findtext "v" = some "x"
    ∧ (deadStepElem.find "v").isSome
    ∧ get_xml_value deadStepElem "v" XMLLookupStrategy.auto
        = autoWithoutFindtext deadStepElem "v" :=
  ⟨rfl, (c10_auto_findtext_step_dead deadStepElem "v").1 "x" rfl,
    (c10_auto_findtext_step_dead deadStepElem "v").2⟩

/-- Counterexample for C3: the Text strategy returns the raw findtext
result. On a child whose text is two spaces, the claim says the result
is absent, but both the Text strategy and the Find strategy text branch
return that whitespace string unchanged, a non-absent value. -/
theorem c3_text_counterexample :
    get_xml_value wsElem "d" XMLLookupStrategy.text
      = some (XMLValue.str "  ")
    ∧ get_xml_value wsElem "d" XMLLookupStrategy.find
      = some (XMLValue.str "  ")
    ∧ ¬ get_xml_value wsElem "d" XMLLookupStrategy.text = none :=
  ⟨rfl, rfl, fun h => Option.noConfusion h⟩

/-- C3 amended: the Text strategy returns the unmodified findtext
result, that is the raw text of the first direct child with the empty
string substituted when that child has no text, and is absent exactly
when no such child exists; the Find strategy text branch returns the
raw child text with no trimming. Trimming and the whitespace-as-absent
rule apply only inside the Auto chain. -/
theorem c3_text_returns_raw_findtext (e : XMLElem) (tag : String) :
    get_xml_value e tag XMLLookupStrategy.text
      = (e.find tag).map (fun c => XMLValue.str (c.text.getD ""))
    ∧ get_xml_value e tag XMLLookupStrategy.find
      = (e.find tag).bind (fun c =>
          match c.get "value" with
          | some v => some (XMLValue.str v)
          | none => c.text.map XMLValue.str) := by
  constructor
  · cases hf : e.find tag <;>
      simp [get_xml_value, XMLElem.findtext, hf]
  · cases hf : e.find tag <;>
      simp [get_xml_value, hf]

/-- C8: the Find strategy locates the first direct child with the tag,
returns its value attribute when present, otherwise the child text, and
is absent when no such child exists. -/
theorem c8_find_strategy (e : XMLElem) (tag : String) :
    (e.find tag = none → get_xml_value e tag XMLLookupStrategy.find = none)
    ∧ (∀ c v, e.find tag = some c → c.get "value" = some v →
        get_xml_value e tag XMLLookupStrategy.find = some (XMLValue.str v))
    ∧ (∀ c, e.find tag = some c → c.get "value" = none →
        get_xml_value e tag XMLLookupStrategy.find = c.text.map XMLValue.str) := by
  refine ⟨fun h => ?_, fun c v hc hv => ?_, fun c hc hv => ?_⟩
  · simp [get_xml_value, h]
  · simp [get_xml_value, hc, hv]
  · simp [get_xml_value, hc, hv]

/-- Witness for C8: the spec example, a yearpublished child with a value
attribute of 2017, extracts to the string 2017 under Find. -/
theorem c8_find_strategy_witness :
    yearParent.find "yearpublished" = some yearElem
    ∧ yearElem.get "value" = some "2017"
    ∧ get_xml_value yearParent "yearpublished" XMLLookupStrategy.find
        = some (XMLValue.str "2017") :=
  ⟨rfl, rfl,
    (c8_find_strategy yearParent "yearpublished").2.1 yearElem "2017" rfl rfl⟩

/-- C9: the FindAll strategy returns the sequence of all direct children
with the tag, in document order, whenever at least one exists, and is
absent when there are none. Document order is expressed by the result
being a sublist of the children list, every member carrying the tag. -/
theorem c9_findall_strategy (e : XMLElem) (tag : String) :
    (get_xml_value e tag XMLLookupStrategy.findall = none ↔ e.findall tag = [])
    ∧ (e.findall tag ≠ [] →
        get_xml_value e tag XMLLookupStrategy.findall
          = some (XMLValue.elems (e.findall tag)))
    ∧ List.Sublist (e.findall tag) e.children
    ∧ (∀ c, c ∈ e.findall tag → c.tag = tag) := by
  refine ⟨?_, fun h => ?_, ?_, fun c hc => ?_⟩
  · by_cases h : e.findall tag = [] <;> simp [get_xml_value, h]
  · simp [get_xml_value, h]
  · exact List.filter_sublist e.children
  · have hm := List.mem_filter.mp hc
    simpa using hm.2

/-- Witness for C9: three link children extract as a sequence of exactly
those three element handles in document order. -/
theorem c9_findall_strategy_witness :
    linkParent.findall "link" = [linkA, linkB, linkC]
    ∧ get_xml_value linkParent "link" XMLLookupStrategy.findall
        = some (XMLValue.elems (linkParent.findall "link")) :=
  ⟨rfl, (c9_findall_strategy linkParent "link").2.1 (List.cons_ne_nil _ _)⟩

/-- Binding equivalence is reflexive. -/
theorem SchemaEquiv_refl (s : RecordSchema) : SchemaEquiv s s := by
  induction s with
  | nil => exact SchemaEquiv.nil
  | cons f rest ih => exact SchemaEquiv.cons f f rest rest rfl rfl rfl rfl rfl ih

/-- Binding equivalence is preserved by a shared prefix. -/
theorem SchemaEquiv_append (pre : RecordSchema) {s₁ s₂ : RecordSchema}
    (h : SchemaEquiv s₁ s₂) : SchemaEquiv (pre ++ s₁) (pre ++ s₂) := by
  induction pre with
  | nil => simpa using h
  | cons g pre ih =>
    simp only [List.cons_append]
    exact SchemaEquiv.cons g g _ _ rfl rfl rfl rfl rfl ih

/-- The value map loop is identical on binding-equivalent schemas. -/
theorem buildValueMapGo_equiv (e : XMLElem) {s₁ s₂ : RecordSchema}
    (hs : SchemaEquiv s₁ s₂) :
    ∀ m, buildValueMapGo e s₁ m = buildValueMapGo e s₂ m := by
  induction hs with
  | nil =>
    intro m
    rfl
  | cons f₁ f₂ s₁ s₂ hname htag hstrat hdflt hcoe hrec ih =>
    intro m
    have hext : extractField e f₁ = extractField e f₂ := by
      unfold extractField
      rw [htag, hstrat]
    simp only [buildValueMapGo, hext, htag]
    exact ih _

/-- Construction is identical on binding-equivalent schemas. -/
theorem constructRecord_equiv (m : List (String × XMLValue)) (t : Nat)
    {s₁ s₂ : RecordSchema} (hs : SchemaEquiv s₁ s₂) :
    constructRecord m t s₁ = constructRecord m t s₂ := by
  induction hs with
  | nil => rfl
  | cons f₁ f₂ s₁ s₂ hname htag hstrat hdflt hcoe hrec ih =>
    have hb : bindField f₁ m t = bindField f₂ m t := by
      unfold bindField
      simp only [htag, hdflt, hcoe, hname]
    simp only [constructRecord, hb, ih, hname]

/-- Binding cannot distinguish binding-equivalent schemas. -/
theorem from_xml_schemaEquiv {s₁ s₂ : RecordSchema} (h : SchemaEquiv s₁ s₂)
    (e : XMLElem) (t : Nat) : from_xml s₁ e t = from_xml s₂ e t := by
  unfold from_xml buildValueMap
  rw [buildValueMapGo_equiv e h, constructRecord_equiv _ t h]

/-- C7: a field whose strategy token is unset, or not one of the
recognized strategy values, is silently treated as Auto: the resolved
strategy is auto, and from_xml on any schema around such a field equals
from_xml with the token replaced by the literal auto token; the bind
never raises because of the token. -/
theorem c7_invalid_strategy_token_downgrades (f : FieldSpec) (tok : String)
    (hbad : strategyFromToken tok = none) (pre post : RecordSchema)
    (e : XMLElem) (t : Nat) :
    resolveStrategy (some tok) = XMLLookupStrategy.auto
    ∧ resolveStrategy none = XMLLookupStrategy.auto
    ∧ from_xml (pre ++ f.withTok (some tok) :: post) e t
        = from_xml (pre ++ f.withTok (some "auto") :: post) e t
    ∧ from_xml (pre ++ f.withTok none :: post) e t
        = from_xml (pre ++ f.withTok (some "auto") :: post) e t := by
  have h1 : resolveStrategy (some tok) = XMLLookupStrategy.auto := by
    show (strategyFromToken tok).getD XMLLookupStrategy.auto
      = XMLLookupStrategy.auto
    rw [hbad]
    rfl
  have h2 : resolveStrategy (some tok) = resolveStrategy (some "auto") := by
    rw [h1]
    rfl
  have h3 : resolveStrategy (none : Option String)
      = resolveStrategy (some "auto") := rfl
  refine ⟨h1, rfl, ?_, ?_⟩
  · exact from_xml_schemaEquiv
      (SchemaEquiv_append pre
        (SchemaEquiv.cons (f.withTok (some tok)) (f.withTok (some "auto"))
          post post rfl rfl h2 rfl rfl (SchemaEquiv_refl post)))
      e t
  · exact from_xml_schemaEquiv
      (SchemaEquiv_append pre
        (SchemaEquiv.cons (f.withTok none) (f.withTok (some "auto"))
          post post rfl rfl h3 rfl rfl (SchemaEquiv_refl post)))
      e t

/-- Witness for C7: the token bogus is unrecognized, resolves to auto,
and binding a one-field schema with it equals binding with the auto
token. -/
theorem c7_invalid_strategy_token_downgrades_witness :
    strategyFromToken "bogus" = none
    ∧ resolveStrategy (some "bogus") = XMLLookupStrategy.auto
    ∧ from_xml [idField.withTok (some "bogus")] elemA 0
        = from_xml [idField.withTok (some "auto")] elemA 0 :=
  ⟨rfl,
    (c7_invalid_strategy_token_downgrades idField "bogus" rfl [] [] elemA 0).1,
    (c7_invalid_strategy_token_downgrades idField "bogus" rfl [] [] elemA 0).2.2.1⟩

/-- A required field with no value in the map makes its bindField step a
missing required error. -/
theorem bindField_missing (f : FieldSpec) (m : List (String × XMLValue))
    (t : Nat) (hreq : f.dflt = FieldDefault.required)
    (hlook : lookupTag m f.resolvedTag = none) :
    bindField f m t = Except.error (BindError.missingRequired f.name) := by
  unfold bindField
  rw [hlook, hreq]

/-- A bindField error is either a missing required field with no mapped
value, or a mapped value its coercion rejects. -/
theorem bindField_error_cases (f : FieldSpec) (m : List (String × XMLValue))
    (t : Nat) (err : BindError) (h : bindField f m t = Except.error err) :
    (err = BindError.missingRequired f.name
      ∧ f.dflt = FieldDefault.required
      ∧ lookupTag m f.resolvedTag = none)
    ∨ (∃ xv, err = BindError.coercionFailed f.name
        ∧ lookupTag m f.resolvedTag = some xv ∧ f.coe xv t = none) := by
  cases hl : lookupTag m f.resolvedTag with
  | some xv =>
    cases hc : f.coe xv t with
    | some v =>
      simp only [bindField, hl, hc] at h
      exact Except.noConfusion h
    | none =>
      simp only [bindField, hl, hc, Except.error.injEq] at h
      right
      exact ⟨xv, h.symm, rfl, hc⟩
  | none =>
    cases hd : f.dflt with
    | value v =>
      simp only [bindField, hl, hd] at h
      exact Except.noConfusion h
    | factoryNow =>
      simp only [bindField, hl, hd] at h
      exact Except.noConfusion h
    | required =>
      simp only [bindField, hl, hd, Except.error.injEq] at h
      left
      exact ⟨h.symm, rfl, rfl⟩

/-- A construction error always originates in a bindField error of some
schema field. -/
theorem constructRecord_error_mem (m : List (String × XMLValue)) (t : Nat) :
    ∀ (s : RecordSchema) (err : BindError),
      constructRecord m t s = Except.error err →
      ∃ f, f ∈ s ∧ bindField f m t = Except.error err := by
  intro s
  induction s with
  | nil =>
    intro err h
    simp [constructRecord] at h
  | cons g rest ih =>
    intro err h
    simp only [constructRecord] at h
    cases hb : bindField g m t with
    | error e₀ =>
      rw [hb] at h
      simp only [] at h
      injection h with h2
      exact ⟨g, List.mem_cons_self g rest, by rw [hb, h2]⟩
    | ok v =>
      rw [hb] at h
      cases hr : constructRecord m t rest with
      | error e₁ =>
        rw [hr] at h
        injection h with h2
        obtain ⟨f, hf, hbf⟩ := ih e₁ hr
        exact ⟨f, List.mem_cons_of_mem g hf, by rw [hbf, h2]⟩
      | ok vs =>
        rw [hr] at h
        simp at h

/-- A bindField error at any schema field makes construction fail. -/
theorem constructRecord_error_of_mem (m : List (String × XMLValue)) (t : Nat) :
    ∀ (s : RecordSchema) (f : FieldSpec) (err : BindError),
      f ∈ s → bindField f m t = Except.error err →
      ∃ errL, constructRecord m t s = Except.error errL := by
  intro s
  induction s with
  | nil =>
    intro f err hmem
    cases hmem
  | cons g rest ih =>
    intro f err hmem hb
    cases hmem with
    | head =>
      exact ⟨err, by simp [constructRecord, hb]⟩
    | tail _ hmem₂ =>
      cases hbg : bindField g m t with
      | error e₀ => exact ⟨e₀, by simp [constructRecord, hbg]⟩
      | ok v =>
        obtain ⟨errL, hL⟩ := ih f err hmem₂ hb
        exact ⟨errL, by simp [constructRecord, hbg, hL]⟩

/-- C4: a required field whose lookup finds no value makes record
construction fail, while the identical configuration with a default
succeeds and yields the default; the extraction phase is total and only
construction fails, and every construction error is a missing required
field or an impossible coercion. -/
theorem c4_required_vs_default :
    (∀ (s : RecordSchema) (e : XMLElem) (t : Nat) (f : FieldSpec),
        f ∈ s → f.dflt = FieldDefault.required →
        lookupTag (buildValueMap s e) f.resolvedTag = none →
        ∃ err, from_xml s e t = Except.error err)
    ∧ (∀ (f : FieldSpec) (v : PyValue) (e : XMLElem) (t : Nat),
        f.dflt = FieldDefault.value v → extractField e f = none →
        from_xml [f] e t = Except.ok [(f.name, v)])
    ∧ (∀ (f : FieldSpec) (e : XMLElem) (t : Nat),
        f.dflt = FieldDefault.required → extractField e f = none →
        from_xml [f] e t = Except.error (BindError.missingRequired f.name))
    ∧ (∀ (s : RecordSchema) (e : XMLElem) (t : Nat) (err : BindError),
        from_xml s e t = Except.error err →
        ∃ f, f ∈ s ∧
          ((err = BindError.missingRequired f.name
              ∧ f.dflt = FieldDefault.required
              ∧ lookupTag (buildValueMap s e) f.resolvedTag = none)
            ∨ (∃ xv, err = BindError.coercionFailed f.name
                ∧ lookupTag (buildValueMap s e) f.resolvedTag = some xv
                ∧ f.coe xv t = none))) := by
  refine ⟨?_, ?_, ?_, ?_⟩
  · intro s e t f hmem hreq hlook
    exact constructRecord_error_of_mem (buildValueMap s e) t s f _ hmem
      (bindField_missing f _ t hreq hlook)
  · intro f v e t hd hext
    simp [from_xml, buildValueMap, buildValueMapGo, hext, constructRecord,
      bindField, lookupTag, hd]
  · intro f e t hd hext
    simp [from_xml, buildValueMap, buildValueMapGo, hext, constructRecord,
      bindField, lookupTag, hd]
  · intro s e t err h
    obtain ⟨f, hf, hb⟩ := constructRecord_error_mem (buildValueMap s e) t s err h
    rcases bindField_error_cases f (buildValueMap s e) t err hb with hcase | hcase
    · exact ⟨f, hf, Or.inl hcase⟩
    · exact ⟨f, hf, Or.inr hcase⟩

/-- Witness for C4: a required rank attribute missing from a bare
element fails the bind, while the same field with a default of five
binds to five. -/
theorem c4_required_vs_default_witness :
    from_xml [reqRank] bareElem 0
      = Except.error (BindError.missingRequired "rank")
    ∧ from_xml [dfltRank] bareElem 0 = Except.ok [("rank", PyValue.vInt 5)] :=
  ⟨c4_required_vs_default.2.2.1 reqRank bareElem 0 rfl rfl,
    c4_required_vs_default.2.1 dfltRank (PyValue.vInt 5) bareElem 0 rfl rfl⟩

/-- C5: when binding one member of the element list fails, the whole
list bind fails; no partial list is produced. -/
theorem c5_list_failure_propagates (s : RecordSchema) (t : Nat) (e : XMLElem)
    (err : BindError) (hfail : from_xml s e t = Except.error err) :
    ∀ es : List XMLElem, e ∈ es →
      ∃ errL, validate_xml s es t = Except.error errL := by
  intro es
  induction es with
  | nil =>
    intro hmem
    cases hmem
  | cons hd tl ih =>
    intro hmem
    cases hmem with
    | head => exact ⟨err, by simp [validate_xml, hfail]⟩
    | tail _ hmem₂ =>
      cases hh : from_xml s hd t with
      | error e₂ => exact ⟨e₂, by simp [validate_xml, hh]⟩
      | ok r =>
        obtain ⟨errL, hL⟩ := ih hmem₂
        exact ⟨errL, by simp [validate_xml, hh, hL]⟩

/-- Witness for C5: a list containing a well-formed element and an
element missing the required id attribute fails to bind as a list. -/
theorem c5_list_failure_propagates_witness :
    from_xml [idField] bareElem 0
      = Except.error (BindError.missingRequired "id")
    ∧ ∃ errL, validate_xml [idField] [elemA, bareElem] 0
        = Except.error errL :=
  ⟨rfl,
    c5_list_failure_propagates [idField] 0 bareElem
      (BindError.missingRequired "id") rfl [elemA, bareElem]
      (List.Mem.tail _ (List.Mem.head _))⟩

/-- C6: list binding maps from_xml over the elements in input order, so
a successful result has the same length as the input and its member at
every index is the bind of the input element at that index; the empty
input yields the empty list. -/
theorem c6_list_bind_preserves_order :
    (∀ (s : RecordSchema) (t : Nat), validate_xml s [] t = Except.ok [])
    ∧ (∀ (s : RecordSchema) (es : List XMLElem) (t : Nat) (rs : List Record),
        validate_xml s es t = Except.ok rs →
        rs.length = es.length
        ∧ ∀ (i : Nat) (hi : i < es.length) (hj : i < rs.length),
            from_xml s (es.get ⟨i, hi⟩) t = Except.ok (rs.get ⟨i, hj⟩)) := by
  constructor
  · intro s t
    rfl
  · intro s es t
    induction es with
    | nil =>
      intro rs h
      simp only [validate_xml] at h
      injection h with h2
      subst h2
      exact ⟨rfl, fun i hi => absurd hi (by simp)⟩
    | cons hd tl ih =>
      intro rs h
      simp only [validate_xml] at h
      cases hh : from_xml s hd t with
      | error err =>
        rw [hh] at h
        simp at h
      | ok r =>
        rw [hh] at h
        cases ht : validate_xml s tl t with
        | error err =>
          rw [ht] at h
          simp at h
        | ok rs₂ =>
          rw [ht] at h
          injection h with h2
          subst h2
          obtain ⟨hlen, hidx⟩ := ih rs₂ ht
          refine ⟨by simp [hlen], ?_⟩
          intro i hi hj
          cases i with
          | zero => simpa using hh
          | succ n =>
            have hres := hidx n (by simpa using hi) (by simpa using hj)
            simpa using hres

/-- Witness for C6: binding two id-carrying elements yields two records
in input order, and the first record is the bind of the first element. -/
theorem c6_list_bind_preserves_order_witness :
    validate_xml [idField] [elemA, elemB] 0
      = Except.ok [[("id", PyValue.vInt 3)], [("id", PyValue.vInt 4)]]
    ∧ ([[("id", PyValue.vInt 3)], [("id", PyValue.vInt 4)]] : List Record).length
        = [elemA, elemB].length
    ∧ from_xml [idField] ([elemA, elemB].get ⟨0, by decide⟩) 0
        = Except.ok
            (([[("id", PyValue.vInt 3)], [("id", PyValue.vInt 4)]] :
              List Record).get ⟨0, by decide⟩) := by
  have h := c6_list_bind_preserves_order.2 [idField] [elemA, elemB] 0
    [[("id", PyValue.vInt 3)], [("id", PyValue.vInt 4)]] rfl
  exact ⟨rfl, h.1, h.2 0 (by decide) (by decide)⟩

/-- Construction does not depend on the clock when no field has a clock
default factory and every coercion is clock independent. -/
theorem constructRecord_time_congr (m : List (String × XMLValue))
    (t₁ t₂ : Nat) :
    ∀ s : RecordSchema,
      (∀ f ∈ s, f.dflt ≠ FieldDefault.factoryNow
        ∧ ∀ xv u₁ u₂, f.coe xv u₁ = f.coe xv u₂) →
      constructRecord m t₁ s = constructRecord m t₂ s := by
  intro s
  induction s with
  | nil =>
    intro _
    rfl
  | cons f rest ih =>
    intro h
    have hf := h f (List.mem_cons_self f rest)
    have hrest := fun g hg => h g (List.mem_cons_of_mem f hg)
    have hb : bindField f m t₁ = bindField f m t₂ := by
      unfold bindField
      cases hl : lookupTag m f.resolvedTag with
      | some xv => simp [hf.2 xv t₁ t₂]
      | none =>
        cases hd : f.dflt with
        | value v => rfl
        | factoryNow => exact absurd hd hf.1
        | required => rfl
    simp only [constructRecord, hb, ih hrest]

/-- C2 amended: binding is a deterministic function of the element, the
schema and the current clock; for a schema none of whose fields uses
the clock (no default factory reading now, clock independent
coercions), repeated binds at different instants agree field for
field. Schemas with a now default factory, such as BGGGame through
fetched_at, are excluded; see the counterexample. -/
theorem c2_bind_deterministic_without_clock (s : RecordSchema) (e : XMLElem)
    (t₁ t₂ : Nat)
    (h : ∀ f ∈ s, f.dflt ≠ FieldDefault.factoryNow
      ∧ ∀ xv u₁ u₂, f.coe xv u₁ = f.coe xv u₂) :
    from_xml s e t₁ = from_xml s e t₂ :=
  constructRecord_time_congr (buildValueMap s e) t₁ t₂ s h

/-- Witness for C2: the BGGName schema uses no clock, so binding the
Wingspan name element at clocks three and eight gives identical
records. -/
theorem c2_bind_deterministic_without_clock_witness :
    (∀ f ∈ nameSchema, f.dflt ≠ FieldDefault.factoryNow
      ∧ ∀ xv u₁ u₂, f.coe xv u₁ = f.coe xv u₂)
    ∧ from_xml nameSchema wingspanName 3 = from_xml nameSchema wingspanName 8 := by
  have h : ∀ f ∈ nameSchema, f.dflt ≠ FieldDefault.factoryNow
      ∧ ∀ xv u₁ u₂, f.coe xv u₁ = f.coe xv u₂ := by
    intro f hf
    simp only [nameSchema, List.mem_cons, List.not_mem_nil, or_false] at hf
    rcases hf with rfl | rfl | rfl <;>
      exact ⟨by intro hcontr; exact FieldDefault.noConfusion hcontr,
        fun xv u₁ u₂ => rfl⟩
  exact ⟨h, c2_bind_deterministic_without_clock nameSchema wingspanName 3 8 h⟩

/-- Counterexample for C2: binding the same game element against the
BGGGame schema at two different instants yields records that differ in
the fetched_at field, because its default factory reads the clock; the
bind is not a pure function of the element and schema alone. -/
theorem c2_bind_clock_counterexample :
    from_xml bggGameSchema gameElem 0 ≠ from_xml bggGameSchema gameElem 1 := by
  intro h
  have h0 : fetchedTime (from_xml bggGameSchema gameElem 0) = some 0 := rfl
  have h1 : fetchedTime (from_xml bggGameSchema gameElem 1) = some 1 := rfl
  rw [h, h1] at h0
  simp at h0

end BGG
